import Mathlib

/-! Package `timeouts` (nonblocking.go): blocking `os` calls raced against a deadline.

The package wraps `os.ReadDir`, `os.Open` and `os.Lstat`.  Each wrapper makes a
buffered channel, starts a goroutine that performs the blocking call and sends
the result on the channel, and then `select`s between that channel and
`time.After(t)`.

The development has two layers.

* A function layer: `ReadDirTimeout`, `OpenTimeout`, `LstatTimeout`, `ReadDir`,
  `Open`, `Lstat` are written statement by statement over small models of the
  Go constructs they use (`make`, `go`, `select`, `time.After`, `errors.New`,
  `count.IncrSuffix`, `count.TimeFuncRunSuffix`).  What the host does is an
  explicit input (`World`): for every path, the pair the primitive returns and
  the instant at which it returns, or the fact that it never returns.
* A step layer (`Step`): the interleavings of the worker's send, the timer and
  the two `select` cases over one invocation's channel of capacity `two`.
-/

namespace timeouts

/-! ## Go values -/

/-- Type `time.Duration`: a signed number of nanoseconds. -/
abbrev Duration := Int

/-- Constant `time.Second`. -/
def time.Second : Duration := 1000000000

/-- Constant `time.Minute`. -/
def time.Minute : Duration := 60 * time.Second

/-- Dynamic values an `error` interface holds in this package: the value built
by `errors.New`, and the path errors the `os` primitives return. -/
inductive GoError where
  | errorString (s : String)
  | pathError (op path msg : String)
  deriving DecidableEq, Repr

/-- Interface type `error`; `none` is `nil`. -/
abbrev error := Option GoError

/-- Method `Error()` of an error value. -/
def GoError.Error : GoError → String
  | .errorString s => s
  | .pathError op path msg => op ++ " " ++ path ++ ": " ++ msg

/-- Function `errors.New`. -/
def errors.New (text : String) : error := some (GoError.errorString text)

/-- An `os.DirEntry`, as far as a caller can observe it. -/
structure DirEntry where
  name : String
  isDir : Bool
  deriving DecidableEq, Repr

/-- An `os.File` (the wrappers return `*os.File`, here `Option File`). -/
structure File where
  fd : Nat
  name : String
  deriving DecidableEq, Repr

/-- An `os.FileInfo` value (an interface, here `Option FileInfo`). -/
structure FileInfo where
  name : String
  size : Nat
  isLink : Bool
  deriving DecidableEq, Repr

/-! ## The host and the process -/

/-- Behaviour of one blocking call: `none` when it never returns, otherwise the
instant (nanoseconds after the wrapper was entered) at which it returns, and
what it returns. -/
abbrev Blocking (ρ : Type) := Option (Nat × ρ)

/-- What lies outside the package for one invocation: the three host
primitives, and the pick `select` makes when both of its cases are ready at the
same instant. -/
structure World where
  ReadDir : String → Blocking (Option (List DirEntry) × error)
  Open : String → Blocking (Option File × error)
  Lstat : String → Blocking (Option FileInfo × error)
  tie : Bool

/-- A call of a host primitive, with the path it was given. -/
inductive Syscall where
  | ReadDir (name : String)
  | Open (name : String)
  | Lstat (name : String)
  deriving DecidableEq, Repr

/-- What the metrics package `count` is asked to record. -/
inductive Metric where
  | incr (name suffix : String)
  | timed (name suffix : String) (ns : Nat)
  deriving DecidableEq, Repr

/-- Process-wide state the wrappers touch: what `count` was asked to record, in
order, and the goroutines started so far, each with the host calls it makes. -/
structure Proc where
  metrics : List Metric
  goroutines : List (List Syscall)
  deriving DecidableEq, Repr

/-- A finished call of a wrapper: the returned pair, the instant of the return
and the process state left behind. -/
structure Call (α : Type) where
  val : Option α
  err : error
  elapsed : Nat
  proc : Proc

/-- The returned `(value, error)` pair of a call. -/
def Call.ret {α : Type} (c : Call α) : Option α × error := (c.val, c.err)

/-! ## Go constructs -/

/-- A host call in flight: which primitive on which path, and how it behaves. -/
structure HostCall (α : Type) where
  event : Syscall
  result : Blocking α

/-- Call `os.ReadDir(name)`. -/
def os.ReadDir (w : World) (name : String) : HostCall (Option (List DirEntry) × error) :=
  ⟨Syscall.ReadDir name, w.ReadDir name⟩

/-- Call `os.Open(name)`. -/
def os.Open (w : World) (name : String) : HostCall (Option File × error) :=
  ⟨Syscall.Open name, w.Open name⟩

/-- Call `os.Lstat(name)`. -/
def os.Lstat (w : World) (name : String) : HostCall (Option FileInfo × error) :=
  ⟨Syscall.Lstat name, w.Lstat name⟩

/-- The body of a worker goroutine: the host calls it makes, and the send it
performs once the last of them has returned (`none`: it never gets there). -/
structure Goroutine (ρ : Type) where
  calls : List Syscall
  send : Blocking ρ

/-- Worker body `x, err := call; resCh <- res{x, err}`. -/
def HostCall.thenSend {α ρ : Type} (c : HostCall α) (pack : α → ρ) : Goroutine ρ :=
  ⟨[c.event], c.result.map fun dr => (dr.1, pack dr.2)⟩

/-- What a worker goroutine sends in the end (`none`: it never reaches its send). -/
def Goroutine.sends {ρ : Type} (g : Goroutine ρ) : Option ρ := g.send.map Prod.snd

/-- A channel of one invocation: its capacity, and the send that will be made
on it. -/
structure Chan (ρ : Type) where
  cap : Nat
  pending : Blocking ρ

/-- Expression `make(chan ρ, cap)`. -/
def make (ρ : Type) (cap : Nat) : Chan ρ := ⟨cap, none⟩

/-- Statement `go func(name string) { body }(name)` where `body` ends by sending on
`resCh`: the goroutine is added to the process and its send becomes the
channel's pending send. -/
def go {ρ : Type} (worker : Goroutine ρ) (resCh : Chan ρ) (p : Proc) : Chan ρ × Proc :=
  ({ resCh with pending := worker.send },
   { p with goroutines := p.goroutines ++ [worker.calls] })

/-- Expression `time.After(t)`: the instant at which the timer channel becomes
ready.  A duration that is not positive fires at once. -/
def time.After (t : Duration) : Nat := t.toNat

/-- Which case of the `select` ran. -/
inductive Case (ρ : Type) where
  | recv (result : ρ)
  | timer

/-- Outcome of the `select`: the case that ran and the instant at which it ran. -/
structure Selected (ρ : Type) where
  case : Case ρ
  elapsed : Nat

/-- Statement `select { case result := <-resCh: ...; case <-time.After(t): ... }`,
entered at instant 0, as an idealised race.  It blocks until one case is ready
and runs the one that is ready first; `tie` is its pick when both become ready
together.  A send on a channel with a free slot (or with this receiver
waiting) is ready as soon as the worker reaches it.  The Go runtime may fire
the timer later than `t`, and picks at random among the cases that are ready
when the caller runs, so there a result that arrives shortly after the timer
can still be received; `Step` admits every such interleaving.  The statements
about the wrappers therefore take the outcome of the race as their condition
and conclude nothing from the instants. -/
def select {ρ : Type} (resCh : Chan ρ) (timer : Nat) (tie : Bool) : Selected ρ :=
  match resCh.pending with
  | none => ⟨Case.timer, timer⟩
  | some (d, r) =>
    if d < timer then ⟨Case.recv r, d⟩
    else if timer < d then ⟨Case.timer, timer⟩
    else if tie then ⟨Case.recv r, d⟩
    else ⟨Case.timer, timer⟩

/-- Function `count.IncrSuffix(name, suffix)`. -/
def count.IncrSuffix (name suffix : String) (p : Proc) : Proc :=
  { p with metrics := p.metrics ++ [Metric.incr name suffix] }

/-- Function `count.TimeFuncRunSuffix(name, f, suffix)`: runs `f` once and records
how long it took under `name`. -/
def count.TimeFuncRunSuffix {α : Type} (name : String) (f : Proc → Call α)
    (suffix : String) (p : Proc) : Call α :=
  let c := f p
  { c with proc := { c.proc with
      metrics := c.proc.metrics ++ [Metric.timed name suffix c.elapsed] } }

/-! ## nonblocking.go -/

/-- Constant `two`. -/
def two : Nat := 2

/-- Package variable `suffix`. -/
def suffix : String := "timeouts"

/-- Local type `res` of `ReadDirTimeout`. -/
structure ReadDirTimeout.res where
  de : Option (List DirEntry)
  err : error

/-- Function `ReadDirTimeout`. -/
def ReadDirTimeout (w : World) (name : String) (t : Duration) (p : Proc) :
    Call (List DirEntry) :=
  let resCh := make ReadDirTimeout.res two
  let started := go ((fun name => (os.ReadDir w name).thenSend fun x => ⟨x.1, x.2⟩) name) resCh p
  match select started.1 (time.After t) w.tie with
  | ⟨Case.recv result, ns⟩ =>
    ⟨result.de, result.err, ns, count.IncrSuffix "readdir-ok" suffix started.2⟩
  | ⟨Case.timer, ns⟩ =>
    ⟨none, errors.New "timeout on ReadDir", ns,
      count.IncrSuffix "readdir-timeout" suffix started.2⟩

/-- Function `ReadDir`. -/
def ReadDir (w : World) (name : String) (p : Proc) : Call (List DirEntry) :=
  count.TimeFuncRunSuffix "readdir" (fun q => ReadDirTimeout w name time.Minute q) suffix p

/-- Local type `res` of `OpenTimeout`. -/
structure OpenTimeout.res where
  f : Option File
  err : error

/-- Function `OpenTimeout`. -/
def OpenTimeout (w : World) (name : String) (t : Duration) (p : Proc) : Call File :=
  let resCh := make OpenTimeout.res two
  let started := go ((fun name => (os.Open w name).thenSend fun x => ⟨x.1, x.2⟩) name) resCh p
  match select started.1 (time.After t) w.tie with
  | ⟨Case.recv result, ns⟩ =>
    ⟨result.f, result.err, ns, count.IncrSuffix "open-ok" suffix started.2⟩
  | ⟨Case.timer, ns⟩ =>
    ⟨none, errors.New "timeout on Open", ns,
      count.IncrSuffix "open-timeout" suffix started.2⟩

/-- Function `Open`. -/
def Open (w : World) (name : String) (p : Proc) : Call File :=
  count.TimeFuncRunSuffix "open" (fun q => OpenTimeout w name time.Minute q) suffix p

/-- Local type `res` of `LstatTimeout`. -/
structure LstatTimeout.res where
  fi : Option FileInfo
  err : error

/-- Function `LstatTimeout`. -/
def LstatTimeout (w : World) (name : String) (t : Duration) (p : Proc) : Call FileInfo :=
  let resCh := make LstatTimeout.res two
  let started := go ((fun name => (os.Lstat w name).thenSend fun x => ⟨x.1, x.2⟩) name) resCh p
  match select started.1 (time.After t) w.tie with
  | ⟨Case.recv result, ns⟩ =>
    ⟨result.fi, result.err, ns, count.IncrSuffix "lstat-ok" suffix started.2⟩
  | ⟨Case.timer, ns⟩ =>
    ⟨none, errors.New "timeout on Lstat", ns,
      count.IncrSuffix "lstat-timeout" suffix started.2⟩

/-- Function `Lstat`. -/
def Lstat (w : World) (name : String) (p : Proc) : Call FileInfo :=
  count.TimeFuncRunSuffix "lstat" (fun q => LstatTimeout w name time.Minute q) suffix p

/-! ## The race, in terms of the world -/

/-- The worker's result, sent at instant `d`, is received before the deadline
`t` fires: it is there strictly earlier, or at the same instant with `select`
picking the receive. -/
def receivedFirst (d : Nat) (t : Duration) (tie : Bool) : Prop :=
  d < time.After t ∨ (d = time.After t ∧ tie = true)

/-- The deadline `t` fires before a result of the call `b` is received: the
call never returns, or returns strictly later, or at the same instant with
`select` picking the timer. -/
def deadlineFirst {ρ : Type} (b : Blocking ρ) (t : Duration) (tie : Bool) : Prop :=
  match b with
  | none => True
  | some (d, _) => time.After t < d ∨ (d = time.After t ∧ tie = false)

instance (d : Nat) (t : Duration) (tie : Bool) : Decidable (receivedFirst d t tie) := by
  unfold receivedFirst; infer_instance

instance {ρ : Type} (b : Blocking ρ) (t : Duration) (tie : Bool) :
    Decidable (deadlineFirst b t tie) := by
  unfold deadlineFirst; cases b <;> infer_instance

/-- Number of latency records under `name` in what `count` was asked to record. -/
def latencyRecords (name : String) : List Metric → Nat
  | [] => 0
  | Metric.timed n _ _ :: ms => (if n = name then 1 else 0) + latencyRecords name ms
  | Metric.incr _ _ :: ms => latencyRecords name ms

/-! ## The generic invoker of the specification -/

namespace Spec

/-- Name of an operation: the stem of its counter names and the name used in
its timeout message. -/
structure OpName where
  counter : String
  title : String

/-- Classification of one invocation (section 3 of the specification). -/
inductive Outcome where
  | Success
  | Failed
  | TimedOut
  deriving DecidableEq, Repr

/-- Branch name under which the sink counts an outcome: the sink interface of
section 6 is "record outcome count for operation name-ok|timeout", and by
scenario 2 of section 8 an underlying error is a completed branch. -/
def Outcome.branch : Outcome → String
  | Outcome.Success => "ok"
  | Outcome.Failed => "ok"
  | Outcome.TimedOut => "timeout"

/-- Report of an outcome to the metrics sink. -/
def report (opName : OpName) (o : Outcome) (p : Proc) : Proc :=
  count.IncrSuffix (opName.counter ++ "-" ++ o.branch) suffix p

/-- Generic invoker, written after section 4.1 of the specification: create a
result channel of capacity at least 1, start a worker that runs the operation
and writes its pair into the channel, wait for the first of the channel and
the deadline, then report the outcome and return the operation's pair
unchanged, or a timeout error naming the operation. -/
def Invoke {α : Type} (operation : HostCall (Option α × error)) (deadline : Duration)
    (opName : OpName) (tie : Bool) (p : Proc) : Call α :=
  let resultChannel := make (Option α × error) 1
  let started := go (operation.thenSend fun x => x) resultChannel p
  match select started.1 (time.After deadline) tie with
  | ⟨Case.recv result, ns⟩ =>
    ⟨result.1, result.2, ns,
      report opName (if result.2.isSome then Outcome.Failed else Outcome.Success) started.2⟩
  | ⟨Case.timer, ns⟩ =>
    ⟨none, errors.New ("timeout on " ++ opName.title), ns,
      report opName Outcome.TimedOut started.2⟩

end Spec

/-! ## One invocation, step by step -/

/-- Where the worker goroutine is: still before the end of its send, or gone. -/
inductive WorkerAt where
  | calling
  | exited
  deriving DecidableEq, Repr

/-- Where the caller is: blocked in the `select`, or past it through one of its
two cases. -/
inductive WaiterAt (ρ : Type) where
  | selecting
  | received (result : ρ)
  | timedOut
  deriving DecidableEq, Repr

/-- State of one invocation: the messages buffered in `resCh` (oldest first),
whether the timer has fired, the two goroutines, and the numbers of sends and
receives completed on `resCh`. -/
structure Invocation (ρ : Type) where
  resCh : List ρ
  fired : Bool
  worker : WorkerAt
  waiter : WaiterAt ρ
  written : Nat
  read : Nat
  deriving DecidableEq, Repr

/-- The steps of one invocation: the worker's `resCh <- res`, the timer firing,
the `select` case `result := <-resCh`, and the `select` case `<-time.After(t)`. -/
inductive Action where
  | send
  | fire
  | recv
  | leave
  deriving DecidableEq, Repr

/-- State right after `make(chan res, cap)` and the `go` statement. -/
def Invocation.init (ρ : Type) : Invocation ρ :=
  ⟨[], false, WorkerAt.calling, WaiterAt.selecting, 0, 0⟩

/-- One step on a channel of capacity `cap`, where `op` is what the host
primitive returns (`none`: it never returns).  The result is `none` when the
step is not enabled: a send needs the primitive to have returned and a free
slot in the buffer, a receive needs a buffered message, the timer fires once,
and the caller leaves by the timer case only after the timer has fired. -/
def Step {ρ : Type} (cap : Nat) (op : Option ρ) (a : Action) (s : Invocation ρ) :
    Option (Invocation ρ) :=
  match a with
  | Action.send =>
    match s.worker, op with
    | WorkerAt.calling, some r =>
      if s.resCh.length < cap then
        some { s with resCh := s.resCh ++ [r], worker := WorkerAt.exited,
                      written := s.written + 1 }
      else none
    | _, _ => none
  | Action.fire =>
    if s.fired then none else some { s with fired := true }
  | Action.recv =>
    match s.waiter, s.resCh with
    | WaiterAt.selecting, r :: rest =>
      some { s with resCh := rest, waiter := WaiterAt.received r, read := s.read + 1 }
    | _, _ => none
  | Action.leave =>
    match s.waiter with
    | WaiterAt.selecting => if s.fired then some { s with waiter := WaiterAt.timedOut } else none
    | _ => none

/-- A schedule run from a state: `none` as soon as a step is not enabled. -/
def exec {ρ : Type} (cap : Nat) (op : Option ρ) : List Action → Invocation ρ →
    Option (Invocation ρ)
  | [], s => some s
  | a :: as, s => (Step cap op a s).bind (exec cap op as)

/-- Bookkeeping that holds along every run: at most one send, every receive
has a send before it, what is buffered is what was sent and not yet received,
a worker that has not finished its send has sent nothing, and a caller still in
the `select` has received nothing. -/
def Invocation.consistent {ρ : Type} (s : Invocation ρ) : Prop :=
  s.written ≤ 1 ∧ s.resCh.length + s.read = s.written ∧
  (s.worker = WorkerAt.calling → s.written = 0) ∧
  (s.waiter = WaiterAt.selecting → s.read = 0)

instance {ρ : Type} [DecidableEq ρ] (s : Invocation ρ) : Decidable s.consistent := by
  unfold Invocation.consistent; infer_instance

/-! ## Sample worlds -/

/-- A host with a healthy directory `/srv`, a mount `/nas` that never answers,
a slow file `/slow`, and nothing else. -/
def sampleWorld : World where
  ReadDir name :=
    if name = "/srv" then some (10, (some [⟨"a", false⟩, ⟨"b", true⟩, ⟨"c", false⟩], none))
    else if name = "/nas" then none
    else if name = "/slow" then some (5000, (some [], none))
    else some (3, (none, some (GoError.pathError "open" name "no such file or directory")))
  Open name :=
    if name = "/srv" then some (10, (some ⟨3, "/srv"⟩, none))
    else if name = "/nas" then none
    else if name = "/slow" then some (5000, (some ⟨4, "/slow"⟩, none))
    else some (3, (none, some (GoError.pathError "open" name "no such file or directory")))
  Lstat name :=
    if name = "/srv" then some (10, (some ⟨"srv", 4096, false⟩, none))
    else if name = "/nas" then none
    else if name = "/slow" then some (5000, (some ⟨"slow", 1, false⟩, none))
    else some (3, (none, some (GoError.pathError "lstat" name "no such file or directory")))
  tie := false

/-- A process that has recorded nothing and started no goroutine. -/
def freshProc : Proc := ⟨[], []⟩

end timeouts

namespace timeouts

/-! ## The `select` statement -/

theorem select_received {ρ : Type} (c d : Nat) (r : ρ) (t : Duration) (tie : Bool)
    (h : receivedFirst d t tie) :
    select ⟨c, some (d, r)⟩ (time.After t) tie = ⟨Case.recv r, d⟩ := by
  unfold select
  rcases h with h | ⟨h, h2⟩
  · simp [h]
  · simp [h, h2]

theorem select_deadline {ρ : Type} (c : Nat) (b : Blocking ρ) (t : Duration) (tie : Bool)
    (h : deadlineFirst b t tie) :
    select ⟨c, b⟩ (time.After t) tie = ⟨Case.timer, time.After t⟩ := by
  unfold select
  cases b with
  | none => rfl
  | some dr =>
    obtain ⟨d, r⟩ := dr
    rcases h with h | ⟨h, h2⟩
    · have h3 : ¬ d < time.After t := by omega
      simp [h, h3]
    · simp [h, h2]

/-- Every race has a winner: either the call returns some pair that is received
first, or the deadline fires first. -/
theorem race_cases {ρ : Type} (b : Blocking ρ) (t : Duration) (tie : Bool) :
    (∃ d r, b = some (d, r) ∧ receivedFirst d t tie) ∨ deadlineFirst b t tie := by
  cases b with
  | none => exact Or.inr trivial
  | some dr =>
    obtain ⟨d, r⟩ := dr
    rcases Nat.lt_trichotomy d (time.After t) with h | h | h
    · exact Or.inl ⟨d, r, rfl, Or.inl h⟩
    · cases tie
      · exact Or.inr (Or.inr ⟨h, rfl⟩)
      · exact Or.inl ⟨d, r, rfl, Or.inr ⟨h, rfl⟩⟩
    · exact Or.inr (Or.inl h)

/-- A race has one winner only. -/
theorem race_exclusive {ρ : Type} (d : Nat) (r : ρ) (t : Duration) (tie : Bool)
    (h : receivedFirst d t tie) : ¬ deadlineFirst (some (d, r)) t tie := by
  intro h2
  rcases h with h | ⟨h, h3⟩ <;> rcases h2 with h2 | ⟨h2, h4⟩
  · omega
  · omega
  · omega
  · rw [h3] at h4; cases h4

theorem deadlineFirst_map {ρ σ : Type} (b : Blocking ρ) (pack : ρ → σ) (t : Duration)
    (tie : Bool) (h : deadlineFirst b t tie) :
    deadlineFirst (Option.map (fun dr => (dr.1, pack dr.2)) b) t tie := by
  cases b with
  | none => trivial
  | some dr => exact h

/-! ## The three wrappers, branch by branch -/

theorem ReadDirTimeout_received (w : World) (name : String) (t : Duration) (p : Proc)
    (d : Nat) (v : Option (List DirEntry)) (e : error)
    (h : w.ReadDir name = some (d, (v, e))) (hr : receivedFirst d t w.tie) :
    ReadDirTimeout w name t p =
      ⟨v, e, d, ⟨p.metrics ++ [Metric.incr "readdir-ok" "timeouts"],
                 p.goroutines ++ [[Syscall.ReadDir name]]⟩⟩ := by
  simp [ReadDirTimeout, go, make, os.ReadDir, HostCall.thenSend, h,
    select_received _ _ _ _ _ hr, count.IncrSuffix, suffix]

theorem ReadDirTimeout_deadline (w : World) (name : String) (t : Duration) (p : Proc)
    (h : deadlineFirst (w.ReadDir name) t w.tie) :
    ReadDirTimeout w name t p =
      ⟨none, some (GoError.errorString "timeout on ReadDir"), time.After t,
        ⟨p.metrics ++ [Metric.incr "readdir-timeout" "timeouts"],
         p.goroutines ++ [[Syscall.ReadDir name]]⟩⟩ := by
  have hs := select_deadline two _ t w.tie
    (deadlineFirst_map (w.ReadDir name) (fun x => (⟨x.1, x.2⟩ : ReadDirTimeout.res)) t w.tie h)
  simp only [ReadDirTimeout, go, make, os.ReadDir, HostCall.thenSend, hs]
  simp [count.IncrSuffix, suffix, errors.New]

theorem OpenTimeout_received (w : World) (name : String) (t : Duration) (p : Proc)
    (d : Nat) (v : Option File) (e : error)
    (h : w.Open name = some (d, (v, e))) (hr : receivedFirst d t w.tie) :
    OpenTimeout w name t p =
      ⟨v, e, d, ⟨p.metrics ++ [Metric.incr "open-ok" "timeouts"],
                 p.goroutines ++ [[Syscall.Open name]]⟩⟩ := by
  simp [OpenTimeout, go, make, os.Open, HostCall.thenSend, h,
    select_received _ _ _ _ _ hr, count.IncrSuffix, suffix]

theorem OpenTimeout_deadline (w : World) (name : String) (t : Duration) (p : Proc)
    (h : deadlineFirst (w.Open name) t w.tie) :
    OpenTimeout w name t p =
      ⟨none, some (GoError.errorString "timeout on Open"), time.After t,
        ⟨p.metrics ++ [Metric.incr "open-timeout" "timeouts"],
         p.goroutines ++ [[Syscall.Open name]]⟩⟩ := by
  have hs := select_deadline two _ t w.tie
    (deadlineFirst_map (w.Open name) (fun x => (⟨x.1, x.2⟩ : OpenTimeout.res)) t w.tie h)
  simp only [OpenTimeout, go, make, os.Open, HostCall.thenSend, hs]
  simp [count.IncrSuffix, suffix, errors.New]

theorem LstatTimeout_received (w : World) (name : String) (t : Duration) (p : Proc)
    (d : Nat) (v : Option FileInfo) (e : error)
    (h : w.Lstat name = some (d, (v, e))) (hr : receivedFirst d t w.tie) :
    LstatTimeout w name t p =
      ⟨v, e, d, ⟨p.metrics ++ [Metric.incr "lstat-ok" "timeouts"],
                 p.goroutines ++ [[Syscall.Lstat name]]⟩⟩ := by
  simp [LstatTimeout, go, make, os.Lstat, HostCall.thenSend, h,
    select_received _ _ _ _ _ hr, count.IncrSuffix, suffix]

theorem LstatTimeout_deadline (w : World) (name : String) (t : Duration) (p : Proc)
    (h : deadlineFirst (w.Lstat name) t w.tie) :
    LstatTimeout w name t p =
      ⟨none, some (GoError.errorString "timeout on Lstat"), time.After t,
        ⟨p.metrics ++ [Metric.incr "lstat-timeout" "timeouts"],
         p.goroutines ++ [[Syscall.Lstat name]]⟩⟩ := by
  have hs := select_deadline two _ t w.tie
    (deadlineFirst_map (w.Lstat name) (fun x => (⟨x.1, x.2⟩ : LstatTimeout.res)) t w.tie h)
  simp only [LstatTimeout, go, make, os.Lstat, HostCall.thenSend, hs]
  simp [count.IncrSuffix, suffix, errors.New]

/-! ## Returned pairs -/

/-- C1. For each of ReadDirTimeout, OpenTimeout and LstatTimeout, for every
world, path, deadline and process state: when the primitive returns the pair
`(v, e)` and that result is received before the deadline fires, the wrapper
returns exactly `(v, e)`, whatever `v` is and whether `e` is nil or not. -/
theorem received_result_returned_unchanged :
    (∀ (w : World) (name : String) (t : Duration) (p : Proc) (d : Nat)
        (v : Option (List DirEntry)) (e : error),
        w.ReadDir name = some (d, (v, e)) → receivedFirst d t w.tie →
        (ReadDirTimeout w name t p).ret = (v, e)) ∧
    (∀ (w : World) (name : String) (t : Duration) (p : Proc) (d : Nat)
        (v : Option File) (e : error),
        w.Open name = some (d, (v, e)) → receivedFirst d t w.tie →
        (OpenTimeout w name t p).ret = (v, e)) ∧
    (∀ (w : World) (name : String) (t : Duration) (p : Proc) (d : Nat)
        (v : Option FileInfo) (e : error),
        w.Lstat name = some (d, (v, e)) → receivedFirst d t w.tie →
        (LstatTimeout w name t p).ret = (v, e)) := by
  refine ⟨?_, ?_, ?_⟩
  · intro w name t p d v e h hr
    rw [ReadDirTimeout_received w name t p d v e h hr]; rfl
  · intro w name t p d v e h hr
    rw [OpenTimeout_received w name t p d v e h hr]; rfl
  · intro w name t p d v e h hr
    rw [LstatTimeout_received w name t p d v e h hr]; rfl

/-- Witness of C1: a listing received after 10 ns under a deadline of 1000 ns, an
open failing after 3 ns (the primitive's own nil value and error come back),
and a metadata read received after 10 ns. -/
theorem received_result_returned_unchanged_witness :
    (ReadDirTimeout sampleWorld "/srv" 1000 freshProc).ret
        = (some [⟨"a", false⟩, ⟨"b", true⟩, ⟨"c", false⟩], none) ∧
    (OpenTimeout sampleWorld "/gone" 1000 freshProc).ret
        = (none, some (GoError.pathError "open" "/gone" "no such file or directory")) ∧
    (LstatTimeout sampleWorld "/srv" 1000 freshProc).ret
        = (some ⟨"srv", 4096, false⟩, none) :=
  ⟨received_result_returned_unchanged.1 sampleWorld "/srv" 1000 freshProc 10 _ _
      (by decide) (by decide),
   received_result_returned_unchanged.2.1 sampleWorld "/gone" 1000 freshProc 3 _ _
      (by decide) (by decide),
   received_result_returned_unchanged.2.2 sampleWorld "/srv" 1000 freshProc 10 _ _
      (by decide) (by decide)⟩

/-- C2. For each of ReadDirTimeout, OpenTimeout and LstatTimeout, for every
world, path, deadline and process state: when the deadline fires before a
result is received, the wrapper returns a nil value and the error built by
`errors.New` from "timeout on ReadDir", "timeout on Open", "timeout on Lstat"
respectively.  The three errors are non-nil, carry these messages, and the
messages are pairwise different.  Two timed-out invocations of the same
wrapper, in whatever worlds (so whatever the primitives produce later), on
whatever paths, with whatever deadlines, return the same pair. -/
theorem deadline_first_returns_timeout_error :
    (∀ (w : World) (name : String) (t : Duration) (p : Proc),
        deadlineFirst (w.ReadDir name) t w.tie →
        (ReadDirTimeout w name t p).ret = (none, errors.New "timeout on ReadDir")) ∧
    (∀ (w : World) (name : String) (t : Duration) (p : Proc),
        deadlineFirst (w.Open name) t w.tie →
        (OpenTimeout w name t p).ret = (none, errors.New "timeout on Open")) ∧
    (∀ (w : World) (name : String) (t : Duration) (p : Proc),
        deadlineFirst (w.Lstat name) t w.tie →
        (LstatTimeout w name t p).ret = (none, errors.New "timeout on Lstat")) ∧
    ((errors.New "timeout on ReadDir").map GoError.Error = some "timeout on ReadDir" ∧
     (errors.New "timeout on Open").map GoError.Error = some "timeout on Open" ∧
     (errors.New "timeout on Lstat").map GoError.Error = some "timeout on Lstat") ∧
    ("timeout on ReadDir" ≠ "timeout on Open" ∧ "timeout on ReadDir" ≠ "timeout on Lstat" ∧
     "timeout on Open" ≠ "timeout on Lstat") ∧
    (∀ (w w2 : World) (name name2 : String) (t t2 : Duration) (p p2 : Proc),
        (deadlineFirst (w.ReadDir name) t w.tie → deadlineFirst (w2.ReadDir name2) t2 w2.tie →
          (ReadDirTimeout w name t p).ret = (ReadDirTimeout w2 name2 t2 p2).ret) ∧
        (deadlineFirst (w.Open name) t w.tie → deadlineFirst (w2.Open name2) t2 w2.tie →
          (OpenTimeout w name t p).ret = (OpenTimeout w2 name2 t2 p2).ret) ∧
        (deadlineFirst (w.Lstat name) t w.tie → deadlineFirst (w2.Lstat name2) t2 w2.tie →
          (LstatTimeout w name t p).ret = (LstatTimeout w2 name2 t2 p2).ret)) := by
  refine ⟨?_, ?_, ?_, ⟨rfl, rfl, rfl⟩, ⟨by decide, by decide, by decide⟩, ?_⟩
  · intro w name t p h
    rw [ReadDirTimeout_deadline w name t p h]; rfl
  · intro w name t p h
    rw [OpenTimeout_deadline w name t p h]; rfl
  · intro w name t p h
    rw [LstatTimeout_deadline w name t p h]; rfl
  · intro w w2 name name2 t t2 p p2
    refine ⟨?_, ?_, ?_⟩
    · intro h h2
      rw [ReadDirTimeout_deadline w name t p h, ReadDirTimeout_deadline w2 name2 t2 p2 h2]
      rfl
    · intro h h2
      rw [OpenTimeout_deadline w name t p h, OpenTimeout_deadline w2 name2 t2 p2 h2]
      rfl
    · intro h h2
      rw [LstatTimeout_deadline w name t p h, LstatTimeout_deadline w2 name2 t2 p2 h2]
      rfl

/-- Witness of C2: a mount that never answers, under deadlines of 200 ns, and a
file that answers after 5000 ns under a deadline of 200 ns. -/
theorem deadline_first_returns_timeout_error_witness :
    (ReadDirTimeout sampleWorld "/nas" 200 freshProc).ret
        = (none, some (GoError.errorString "timeout on ReadDir")) ∧
    (OpenTimeout sampleWorld "/slow" 200 freshProc).ret
        = (none, some (GoError.errorString "timeout on Open")) ∧
    (LstatTimeout sampleWorld "/nas" 200 freshProc).ret
        = (none, some (GoError.errorString "timeout on Lstat")) ∧
    (ReadDirTimeout sampleWorld "/nas" 200 freshProc).ret
        = (ReadDirTimeout sampleWorld "/slow" 70 freshProc).ret ∧
    (OpenTimeout sampleWorld "/nas" 200 freshProc).ret
        = (OpenTimeout sampleWorld "/slow" 70 freshProc).ret ∧
    (LstatTimeout sampleWorld "/nas" 200 freshProc).ret
        = (LstatTimeout sampleWorld "/slow" 70 freshProc).ret :=
  ⟨deadline_first_returns_timeout_error.1 sampleWorld "/nas" 200 freshProc (by decide),
   deadline_first_returns_timeout_error.2.1 sampleWorld "/slow" 200 freshProc (by decide),
   deadline_first_returns_timeout_error.2.2.1 sampleWorld "/nas" 200 freshProc (by decide),
   (deadline_first_returns_timeout_error.2.2.2.2.2 sampleWorld sampleWorld "/nas" "/slow"
      200 70 freshProc freshProc).1 (by decide) (by decide),
   (deadline_first_returns_timeout_error.2.2.2.2.2 sampleWorld sampleWorld "/nas" "/slow"
      200 70 freshProc freshProc).2.1 (by decide) (by decide),
   (deadline_first_returns_timeout_error.2.2.2.2.2 sampleWorld sampleWorld "/nas" "/slow"
      200 70 freshProc freshProc).2.2 (by decide) (by decide)⟩

/-- The returned pair does not depend on the process state the call starts from. -/
theorem ReadDirTimeout_ret_proc (w : World) (name : String) (t : Duration) (p q : Proc) :
    (ReadDirTimeout w name t p).ret = (ReadDirTimeout w name t q).ret := by
  rcases race_cases (w.ReadDir name) t w.tie with ⟨d, ⟨v, e⟩, h, hr⟩ | h
  · rw [ReadDirTimeout_received w name t p d v e h hr,
      ReadDirTimeout_received w name t q d v e h hr]; rfl
  · rw [ReadDirTimeout_deadline w name t p h, ReadDirTimeout_deadline w name t q h]; rfl

theorem OpenTimeout_ret_proc (w : World) (name : String) (t : Duration) (p q : Proc) :
    (OpenTimeout w name t p).ret = (OpenTimeout w name t q).ret := by
  rcases race_cases (w.Open name) t w.tie with ⟨d, ⟨v, e⟩, h, hr⟩ | h
  · rw [OpenTimeout_received w name t p d v e h hr,
      OpenTimeout_received w name t q d v e h hr]; rfl
  · rw [OpenTimeout_deadline w name t p h, OpenTimeout_deadline w name t q h]; rfl

theorem LstatTimeout_ret_proc (w : World) (name : String) (t : Duration) (p q : Proc) :
    (LstatTimeout w name t p).ret = (LstatTimeout w name t q).ret := by
  rcases race_cases (w.Lstat name) t w.tie with ⟨d, ⟨v, e⟩, h, hr⟩ | h
  · rw [LstatTimeout_received w name t p d v e h hr,
      LstatTimeout_received w name t q d v e h hr]; rfl
  · rw [LstatTimeout_deadline w name t p h, LstatTimeout_deadline w name t q h]; rfl

/-- C4. In every world (so for the same primitive result and the same race), for
every path and whatever the process states the two calls start from, ReadDir,
Open and Lstat return the pair that ReadDirTimeout, OpenTimeout and
LstatTimeout return with a deadline of 60 seconds, that is 60000000000 ns; the
timing wrapper leaves the pair as it is. -/
theorem default_entry_equals_sixty_second_variant (w : World) (name : String) (p q : Proc) :
    (ReadDir w name p).ret = (ReadDirTimeout w name (60 * time.Second) q).ret ∧
    (Open w name p).ret = (OpenTimeout w name (60 * time.Second) q).ret ∧
    (Lstat w name p).ret = (LstatTimeout w name (60 * time.Second) q).ret ∧
    60 * time.Second = (60000000000 : Int) := by
  refine ⟨?_, ?_, ?_, by decide⟩
  · exact ReadDirTimeout_ret_proc w name _ p q
  · exact OpenTimeout_ret_proc w name _ p q
  · exact LstatTimeout_ret_proc w name _ p q

/-! ## Outcome counters -/

theorem ReadDirTimeout_appends_one (w : World) (name : String) (t : Duration)
    (p : Proc) :
    ∃ m, (ReadDirTimeout w name t p).proc.metrics = p.metrics ++ [m] ∧
      (m = Metric.incr "readdir-ok" "timeouts" ∨
       m = Metric.incr "readdir-timeout" "timeouts") := by
  rcases race_cases (w.ReadDir name) t w.tie with ⟨d, ⟨v, e⟩, h, hr⟩ | h
  · exact ⟨_, by rw [ReadDirTimeout_received w name t p d v e h hr], Or.inl rfl⟩
  · exact ⟨_, by rw [ReadDirTimeout_deadline w name t p h], Or.inr rfl⟩

theorem OpenTimeout_appends_one (w : World) (name : String) (t : Duration)
    (p : Proc) :
    ∃ m, (OpenTimeout w name t p).proc.metrics = p.metrics ++ [m] ∧
      (m = Metric.incr "open-ok" "timeouts" ∨
       m = Metric.incr "open-timeout" "timeouts") := by
  rcases race_cases (w.Open name) t w.tie with ⟨d, ⟨v, e⟩, h, hr⟩ | h
  · exact ⟨_, by rw [OpenTimeout_received w name t p d v e h hr], Or.inl rfl⟩
  · exact ⟨_, by rw [OpenTimeout_deadline w name t p h], Or.inr rfl⟩

theorem LstatTimeout_appends_one (w : World) (name : String) (t : Duration)
    (p : Proc) :
    ∃ m, (LstatTimeout w name t p).proc.metrics = p.metrics ++ [m] ∧
      (m = Metric.incr "lstat-ok" "timeouts" ∨
       m = Metric.incr "lstat-timeout" "timeouts") := by
  rcases race_cases (w.Lstat name) t w.tie with ⟨d, ⟨v, e⟩, h, hr⟩ | h
  · exact ⟨_, by rw [LstatTimeout_received w name t p d v e h hr], Or.inl rfl⟩
  · exact ⟨_, by rw [LstatTimeout_deadline w name t p h], Or.inr rfl⟩

/-- C5. Every invocation of ReadDirTimeout, OpenTimeout or LstatTimeout appends
exactly one record to what `count` is asked to record, and that record is the
increment of one of the two outcome counters of the operation: the "ok"
counter when the primitive's pair is received first, whatever the pair (so also
with a non-nil error), and the "timeout" counter when the deadline fires first. -/
theorem exactly_one_outcome_counter :
    (∀ (w : World) (name : String) (t : Duration) (p : Proc),
      (∃ m, (ReadDirTimeout w name t p).proc.metrics = p.metrics ++ [m] ∧
            (m = Metric.incr "readdir-ok" "timeouts" ∨
             m = Metric.incr "readdir-timeout" "timeouts")) ∧
      (∀ d v e, w.ReadDir name = some (d, (v, e)) → receivedFirst d t w.tie →
        (ReadDirTimeout w name t p).proc.metrics
          = p.metrics ++ [Metric.incr "readdir-ok" "timeouts"]) ∧
      (deadlineFirst (w.ReadDir name) t w.tie →
        (ReadDirTimeout w name t p).proc.metrics
          = p.metrics ++ [Metric.incr "readdir-timeout" "timeouts"])) ∧
    (∀ (w : World) (name : String) (t : Duration) (p : Proc),
      (∃ m, (OpenTimeout w name t p).proc.metrics = p.metrics ++ [m] ∧
            (m = Metric.incr "open-ok" "timeouts" ∨
             m = Metric.incr "open-timeout" "timeouts")) ∧
      (∀ d v e, w.Open name = some (d, (v, e)) → receivedFirst d t w.tie →
        (OpenTimeout w name t p).proc.metrics
          = p.metrics ++ [Metric.incr "open-ok" "timeouts"]) ∧
      (deadlineFirst (w.Open name) t w.tie →
        (OpenTimeout w name t p).proc.metrics
          = p.metrics ++ [Metric.incr "open-timeout" "timeouts"])) ∧
    (∀ (w : World) (name : String) (t : Duration) (p : Proc),
      (∃ m, (LstatTimeout w name t p).proc.metrics = p.metrics ++ [m] ∧
            (m = Metric.incr "lstat-ok" "timeouts" ∨
             m = Metric.incr "lstat-timeout" "timeouts")) ∧
      (∀ d v e, w.Lstat name = some (d, (v, e)) → receivedFirst d t w.tie →
        (LstatTimeout w name t p).proc.metrics
          = p.metrics ++ [Metric.incr "lstat-ok" "timeouts"]) ∧
      (deadlineFirst (w.Lstat name) t w.tie →
        (LstatTimeout w name t p).proc.metrics
          = p.metrics ++ [Metric.incr "lstat-timeout" "timeouts"])) := by
  refine ⟨?_, ?_, ?_⟩
  · intro w name t p
    refine ⟨ReadDirTimeout_appends_one w name t p, ?_, ?_⟩
    · intro d v e h hr
      rw [ReadDirTimeout_received w name t p d v e h hr]
    · intro h
      rw [ReadDirTimeout_deadline w name t p h]
  · intro w name t p
    refine ⟨OpenTimeout_appends_one w name t p, ?_, ?_⟩
    · intro d v e h hr
      rw [OpenTimeout_received w name t p d v e h hr]
    · intro h
      rw [OpenTimeout_deadline w name t p h]
  · intro w name t p
    refine ⟨LstatTimeout_appends_one w name t p, ?_, ?_⟩
    · intro d v e h hr
      rw [LstatTimeout_received w name t p d v e h hr]
    · intro h
      rw [LstatTimeout_deadline w name t p h]

/-- Witness of C5: an open that fails after 3 ns counts as "open-ok", and a
listing of a mount that never answers counts as "readdir-timeout". -/
theorem exactly_one_outcome_counter_witness :
    (OpenTimeout sampleWorld "/gone" 1000 freshProc).proc.metrics
        = [Metric.incr "open-ok" "timeouts"] ∧
    (ReadDirTimeout sampleWorld "/nas" 200 freshProc).proc.metrics
        = [Metric.incr "readdir-timeout" "timeouts"] :=
  ⟨(exactly_one_outcome_counter.2.1 sampleWorld "/gone" 1000 freshProc).2.1 3 none
      (some (GoError.pathError "open" "/gone" "no such file or directory"))
      (by decide) (by decide),
   (exactly_one_outcome_counter.1 sampleWorld "/nas" 200 freshProc).2.2 (by decide)⟩

/-! ## Attempts -/

/-- C8. Every invocation of ReadDirTimeout, OpenTimeout or LstatTimeout, in
every world and so on either branch, starts exactly one goroutine, and that
goroutine makes exactly one host call: `os.ReadDir`, `os.Open` and `os.Lstat`
respectively, on the caller's path as given. -/
theorem exactly_one_attempt (w : World) (name : String) (t : Duration) (p : Proc) :
    (ReadDirTimeout w name t p).proc.goroutines
        = p.goroutines ++ [[Syscall.ReadDir name]] ∧
    (OpenTimeout w name t p).proc.goroutines = p.goroutines ++ [[Syscall.Open name]] ∧
    (LstatTimeout w name t p).proc.goroutines = p.goroutines ++ [[Syscall.Lstat name]] := by
  refine ⟨?_, ?_, ?_⟩
  · rcases race_cases (w.ReadDir name) t w.tie with ⟨d, ⟨v, e⟩, h, hr⟩ | h
    · rw [ReadDirTimeout_received w name t p d v e h hr]
    · rw [ReadDirTimeout_deadline w name t p h]
  · rcases race_cases (w.Open name) t w.tie with ⟨d, ⟨v, e⟩, h, hr⟩ | h
    · rw [OpenTimeout_received w name t p d v e h hr]
    · rw [OpenTimeout_deadline w name t p h]
  · rcases race_cases (w.Lstat name) t w.tie with ⟨d, ⟨v, e⟩, h, hr⟩ | h
    · rw [LstatTimeout_received w name t p d v e h hr]
    · rw [LstatTimeout_deadline w name t p h]

/-! ## The wrappers as instances of the generic invoker -/

theorem Invoke_received {α : Type} (op : HostCall (Option α × error)) (t : Duration)
    (n : Spec.OpName) (tie : Bool) (p : Proc) (d : Nat) (v : Option α) (e : error)
    (h : op.result = some (d, (v, e))) (hr : receivedFirst d t tie) :
    Spec.Invoke op t n tie p =
      ⟨v, e, d, ⟨p.metrics ++ [Metric.incr (n.counter ++ "-" ++ "ok") "timeouts"],
                 p.goroutines ++ [[op.event]]⟩⟩ := by
  simp only [Spec.Invoke, go, make, HostCall.thenSend, h, Option.map,
    select_received _ _ _ _ _ hr]
  cases e <;> simp [Spec.report, Spec.Outcome.branch, count.IncrSuffix, suffix]

theorem Invoke_deadline {α : Type} (op : HostCall (Option α × error)) (t : Duration)
    (n : Spec.OpName) (tie : Bool) (p : Proc) (h : deadlineFirst op.result t tie) :
    Spec.Invoke op t n tie p =
      ⟨none, some (GoError.errorString ("timeout on " ++ n.title)), time.After t,
        ⟨p.metrics ++ [Metric.incr (n.counter ++ "-" ++ "timeout") "timeouts"],
         p.goroutines ++ [[op.event]]⟩⟩ := by
  have hs := select_deadline 1 _ t tie
    (deadlineFirst_map op.result (fun x => x) t tie h)
  simp only [Spec.Invoke, go, make, HostCall.thenSend, hs]
  simp [Spec.report, Spec.Outcome.branch, count.IncrSuffix, suffix, errors.New]

/-- C10. In every world, for every path, deadline and process state,
ReadDirTimeout, OpenTimeout and LstatTimeout are each equal (returned pair,
instant of return, records and goroutines) to the generic invoker of the
specification applied to the call of their primitive on the path, the deadline
and their operation name; nothing else is done by any of them. -/
theorem wrappers_are_instances_of_Invoke (w : World) (name : String) (t : Duration)
    (p : Proc) :
    ReadDirTimeout w name t p
        = Spec.Invoke (os.ReadDir w name) t ⟨"readdir", "ReadDir"⟩ w.tie p ∧
    OpenTimeout w name t p = Spec.Invoke (os.Open w name) t ⟨"open", "Open"⟩ w.tie p ∧
    LstatTimeout w name t p = Spec.Invoke (os.Lstat w name) t ⟨"lstat", "Lstat"⟩ w.tie p := by
  refine ⟨?_, ?_, ?_⟩
  · rcases race_cases (w.ReadDir name) t w.tie with ⟨d, ⟨v, e⟩, h, hr⟩ | h
    · rw [ReadDirTimeout_received w name t p d v e h hr,
        Invoke_received (os.ReadDir w name) t _ w.tie p d v e h hr]
      rfl
    · rw [ReadDirTimeout_deadline w name t p h,
        Invoke_deadline (os.ReadDir w name) t _ w.tie p h]
      rfl
  · rcases race_cases (w.Open name) t w.tie with ⟨d, ⟨v, e⟩, h, hr⟩ | h
    · rw [OpenTimeout_received w name t p d v e h hr,
        Invoke_received (os.Open w name) t _ w.tie p d v e h hr]
      rfl
    · rw [OpenTimeout_deadline w name t p h,
        Invoke_deadline (os.Open w name) t _ w.tie p h]
      rfl
  · rcases race_cases (w.Lstat name) t w.tie with ⟨d, ⟨v, e⟩, h, hr⟩ | h
    · rw [LstatTimeout_received w name t p d v e h hr,
        Invoke_received (os.Lstat w name) t _ w.tie p d v e h hr]
      rfl
    · rw [LstatTimeout_deadline w name t p h,
        Invoke_deadline (os.Lstat w name) t _ w.tie p h]
      rfl

/-! ## What the metrics sink can tell apart -/

/-- Counterexample to C6: a listing that fails (non-nil error) and a listing that
succeeds (nil error), both received before the deadline, are reported by the
same single record, the increment of "readdir-ok". -/
theorem failed_call_reported_like_success :
    (ReadDirTimeout sampleWorld "/gone" 1000 freshProc).err
      = some (GoError.pathError "open" "/gone" "no such file or directory") ∧
    (ReadDirTimeout sampleWorld "/srv" 1000 freshProc).err = none ∧
    (ReadDirTimeout sampleWorld "/gone" 1000 freshProc).proc.metrics
      = [Metric.incr "readdir-ok" "timeouts"] ∧
    (ReadDirTimeout sampleWorld "/srv" 1000 freshProc).proc.metrics
      = [Metric.incr "readdir-ok" "timeouts"] := by
  decide

/-- C6, amended. For each of ReadDirTimeout, OpenTimeout and LstatTimeout, started
from the same records `p.metrics`: a call whose result is received before the
deadline leaves `p.metrics` followed by the increment of the operation's "ok"
counter, whatever the primitive's value and error, so a second completed call
with any other value and error (nil against non-nil included) leaves exactly
the same records; a call on which the deadline fires first leaves `p.metrics`
followed by the increment of the "timeout" counter, and these records differ
from those of the completed call.  The sink tells a completed call from a
timed-out one, and a failed call from a successful one not at all. -/
theorem completed_calls_reported_alike :
    (∀ (w w2 w3 : World) (name name2 name3 : String) (t t2 t3 : Duration) (p : Proc)
        (d d2 : Nat) (v v2 : Option (List DirEntry)) (e e2 : error),
        w.ReadDir name = some (d, (v, e)) → receivedFirst d t w.tie →
        w2.ReadDir name2 = some (d2, (v2, e2)) → receivedFirst d2 t2 w2.tie →
        deadlineFirst (w3.ReadDir name3) t3 w3.tie →
        (ReadDirTimeout w name t p).proc.metrics
          = p.metrics ++ [Metric.incr "readdir-ok" "timeouts"] ∧
        (ReadDirTimeout w2 name2 t2 p).proc.metrics
          = (ReadDirTimeout w name t p).proc.metrics ∧
        (ReadDirTimeout w3 name3 t3 p).proc.metrics
          = p.metrics ++ [Metric.incr "readdir-timeout" "timeouts"] ∧
        (ReadDirTimeout w3 name3 t3 p).proc.metrics
          ≠ (ReadDirTimeout w name t p).proc.metrics) ∧
    (∀ (w w2 w3 : World) (name name2 name3 : String) (t t2 t3 : Duration) (p : Proc)
        (d d2 : Nat) (v v2 : Option File) (e e2 : error),
        w.Open name = some (d, (v, e)) → receivedFirst d t w.tie →
        w2.Open name2 = some (d2, (v2, e2)) → receivedFirst d2 t2 w2.tie →
        deadlineFirst (w3.Open name3) t3 w3.tie →
        (OpenTimeout w name t p).proc.metrics
          = p.metrics ++ [Metric.incr "open-ok" "timeouts"] ∧
        (OpenTimeout w2 name2 t2 p).proc.metrics
          = (OpenTimeout w name t p).proc.metrics ∧
        (OpenTimeout w3 name3 t3 p).proc.metrics
          = p.metrics ++ [Metric.incr "open-timeout" "timeouts"] ∧
        (OpenTimeout w3 name3 t3 p).proc.metrics
          ≠ (OpenTimeout w name t p).proc.metrics) ∧
    (∀ (w w2 w3 : World) (name name2 name3 : String) (t t2 t3 : Duration) (p : Proc)
        (d d2 : Nat) (v v2 : Option FileInfo) (e e2 : error),
        w.Lstat name = some (d, (v, e)) → receivedFirst d t w.tie →
        w2.Lstat name2 = some (d2, (v2, e2)) → receivedFirst d2 t2 w2.tie →
        deadlineFirst (w3.Lstat name3) t3 w3.tie →
        (LstatTimeout w name t p).proc.metrics
          = p.metrics ++ [Metric.incr "lstat-ok" "timeouts"] ∧
        (LstatTimeout w2 name2 t2 p).proc.metrics
          = (LstatTimeout w name t p).proc.metrics ∧
        (LstatTimeout w3 name3 t3 p).proc.metrics
          = p.metrics ++ [Metric.incr "lstat-timeout" "timeouts"] ∧
        (LstatTimeout w3 name3 t3 p).proc.metrics
          ≠ (LstatTimeout w name t p).proc.metrics) := by
  refine ⟨?_, ?_, ?_⟩
  · intro w w2 w3 name name2 name3 t t2 t3 p d d2 v v2 e e2 h hr h2 hr2 h3
    rw [ReadDirTimeout_received w name t p d v e h hr,
      ReadDirTimeout_received w2 name2 t2 p d2 v2 e2 h2 hr2,
      ReadDirTimeout_deadline w3 name3 t3 p h3]
    exact ⟨rfl, rfl, rfl, by simp⟩
  · intro w w2 w3 name name2 name3 t t2 t3 p d d2 v v2 e e2 h hr h2 hr2 h3
    rw [OpenTimeout_received w name t p d v e h hr,
      OpenTimeout_received w2 name2 t2 p d2 v2 e2 h2 hr2,
      OpenTimeout_deadline w3 name3 t3 p h3]
    exact ⟨rfl, rfl, rfl, by simp⟩
  · intro w w2 w3 name name2 name3 t t2 t3 p d d2 v v2 e e2 h hr h2 hr2 h3
    rw [LstatTimeout_received w name t p d v e h hr,
      LstatTimeout_received w2 name2 t2 p d2 v2 e2 h2 hr2,
      LstatTimeout_deadline w3 name3 t3 p h3]
    exact ⟨rfl, rfl, rfl, by simp⟩

/-- Witness of the amended C6: for each wrapper a failing call on `/gone`, a
succeeding call on `/srv`, and a call on the mount `/nas` that never answers. -/
theorem completed_calls_reported_alike_witness :
    ((ReadDirTimeout sampleWorld "/gone" 1000 freshProc).proc.metrics
        = freshProc.metrics ++ [Metric.incr "readdir-ok" "timeouts"] ∧
      (ReadDirTimeout sampleWorld "/srv" 1000 freshProc).proc.metrics
        = (ReadDirTimeout sampleWorld "/gone" 1000 freshProc).proc.metrics ∧
      (ReadDirTimeout sampleWorld "/nas" 200 freshProc).proc.metrics
        = freshProc.metrics ++ [Metric.incr "readdir-timeout" "timeouts"] ∧
      (ReadDirTimeout sampleWorld "/nas" 200 freshProc).proc.metrics
        ≠ (ReadDirTimeout sampleWorld "/gone" 1000 freshProc).proc.metrics) ∧
    ((OpenTimeout sampleWorld "/gone" 1000 freshProc).proc.metrics
        = freshProc.metrics ++ [Metric.incr "open-ok" "timeouts"] ∧
      (OpenTimeout sampleWorld "/srv" 1000 freshProc).proc.metrics
        = (OpenTimeout sampleWorld "/gone" 1000 freshProc).proc.metrics ∧
      (OpenTimeout sampleWorld "/nas" 200 freshProc).proc.metrics
        = freshProc.metrics ++ [Metric.incr "open-timeout" "timeouts"] ∧
      (OpenTimeout sampleWorld "/nas" 200 freshProc).proc.metrics
        ≠ (OpenTimeout sampleWorld "/gone" 1000 freshProc).proc.metrics) ∧
    ((LstatTimeout sampleWorld "/gone" 1000 freshProc).proc.metrics
        = freshProc.metrics ++ [Metric.incr "lstat-ok" "timeouts"] ∧
      (LstatTimeout sampleWorld "/srv" 1000 freshProc).proc.metrics
        = (LstatTimeout sampleWorld "/gone" 1000 freshProc).proc.metrics ∧
      (LstatTimeout sampleWorld "/nas" 200 freshProc).proc.metrics
        = freshProc.metrics ++ [Metric.incr "lstat-timeout" "timeouts"] ∧
      (LstatTimeout sampleWorld "/nas" 200 freshProc).proc.metrics
        ≠ (LstatTimeout sampleWorld "/gone" 1000 freshProc).proc.metrics) :=
  ⟨completed_calls_reported_alike.1 sampleWorld sampleWorld sampleWorld "/gone" "/srv" "/nas"
      1000 1000 200 freshProc 3 10 _ _ _ _ rfl (by decide) rfl (by decide) (by decide),
   completed_calls_reported_alike.2.1 sampleWorld sampleWorld sampleWorld "/gone" "/srv" "/nas"
      1000 1000 200 freshProc 3 10 _ _ _ _ rfl (by decide) rfl (by decide) (by decide),
   completed_calls_reported_alike.2.2 sampleWorld sampleWorld sampleWorld "/gone" "/srv" "/nas"
      1000 1000 200 freshProc 3 10 _ _ _ _ rfl (by decide) rfl (by decide) (by decide)⟩

/-! ## Latency records -/

theorem latencyRecords_append (n : String) (a b : List Metric) :
    latencyRecords n (a ++ b) = latencyRecords n a + latencyRecords n b := by
  induction a with
  | nil => simp [latencyRecords]
  | cons m ms ih =>
    cases m with
    | incr x y => simp [latencyRecords, ih]
    | timed x y k => simp [latencyRecords, ih, Nat.add_assoc]

/-- Counterexample to C7: an invocation made through ReadDirTimeout records its
outcome counter and no latency at all. -/
theorem timeout_variant_records_no_latency :
    (ReadDirTimeout sampleWorld "/srv" 1000 freshProc).proc.metrics
      = [Metric.incr "readdir-ok" "timeouts"] ∧
    latencyRecords "readdir" (ReadDirTimeout sampleWorld "/srv" 1000 freshProc).proc.metrics
      = 0 := by
  decide

/-- C7, amended. Every invocation made through ReadDir, Open or Lstat records its
latency exactly once, under "readdir", "open" and "lstat" respectively: the
records it leaves are those of the deadline variant called with one minute,
followed by one latency record holding the time the call took.  An invocation
made directly through ReadDirTimeout, OpenTimeout or LstatTimeout adds no
latency record under any name. -/
theorem latency_recorded_by_default_entry_only (w : World) (name : String) (t : Duration)
    (p : Proc) :
    ((ReadDir w name p).proc.metrics
        = (ReadDirTimeout w name time.Minute p).proc.metrics
            ++ [Metric.timed "readdir" "timeouts" (ReadDir w name p).elapsed] ∧
      latencyRecords "readdir" (ReadDir w name p).proc.metrics
        = latencyRecords "readdir" p.metrics + 1 ∧
      ∀ n, latencyRecords n (ReadDirTimeout w name t p).proc.metrics
        = latencyRecords n p.metrics) ∧
    ((Open w name p).proc.metrics
        = (OpenTimeout w name time.Minute p).proc.metrics
            ++ [Metric.timed "open" "timeouts" (Open w name p).elapsed] ∧
      latencyRecords "open" (Open w name p).proc.metrics
        = latencyRecords "open" p.metrics + 1 ∧
      ∀ n, latencyRecords n (OpenTimeout w name t p).proc.metrics
        = latencyRecords n p.metrics) ∧
    ((Lstat w name p).proc.metrics
        = (LstatTimeout w name time.Minute p).proc.metrics
            ++ [Metric.timed "lstat" "timeouts" (Lstat w name p).elapsed] ∧
      latencyRecords "lstat" (Lstat w name p).proc.metrics
        = latencyRecords "lstat" p.metrics + 1 ∧
      ∀ n, latencyRecords n (LstatTimeout w name t p).proc.metrics
        = latencyRecords n p.metrics) := by
  have hR : ∀ u n, latencyRecords n (ReadDirTimeout w name u p).proc.metrics
      = latencyRecords n p.metrics := by
    intro u n
    obtain ⟨m, hm, hc⟩ := (ReadDirTimeout_appends_one w name u p)
    rw [hm, latencyRecords_append]
    rcases hc with rfl | rfl <;> simp [latencyRecords]
  have hO : ∀ u n, latencyRecords n (OpenTimeout w name u p).proc.metrics
      = latencyRecords n p.metrics := by
    intro u n
    obtain ⟨m, hm, hc⟩ := (OpenTimeout_appends_one w name u p)
    rw [hm, latencyRecords_append]
    rcases hc with rfl | rfl <;> simp [latencyRecords]
  have hL : ∀ u n, latencyRecords n (LstatTimeout w name u p).proc.metrics
      = latencyRecords n p.metrics := by
    intro u n
    obtain ⟨m, hm, hc⟩ := (LstatTimeout_appends_one w name u p)
    rw [hm, latencyRecords_append]
    rcases hc with rfl | rfl <;> simp [latencyRecords]
  refine ⟨⟨rfl, ?_, hR t⟩, ⟨rfl, ?_, hO t⟩, ⟨rfl, ?_, hL t⟩⟩
  · show latencyRecords "readdir" ((ReadDirTimeout w name time.Minute p).proc.metrics
      ++ [Metric.timed "readdir" "timeouts" _]) = _
    rw [latencyRecords_append, hR]; simp [latencyRecords]
  · show latencyRecords "open" ((OpenTimeout w name time.Minute p).proc.metrics
      ++ [Metric.timed "open" "timeouts" _]) = _
    rw [latencyRecords_append, hO]; simp [latencyRecords]
  · show latencyRecords "lstat" ((LstatTimeout w name time.Minute p).proc.metrics
      ++ [Metric.timed "lstat" "timeouts" _]) = _
    rw [latencyRecords_append, hL]; simp [latencyRecords]

/-! ## Runs of one invocation -/

theorem Step_consistent {ρ : Type} (cap : Nat) (op : Option ρ) (a : Action)
    (s s2 : Invocation ρ) (hs : s.consistent) (h : Step cap op a s = some s2) :
    s2.consistent := by
  obtain ⟨buf, fired, wk, wt, wr, rd⟩ := s
  obtain ⟨h1, h2, h3, h4⟩ := hs
  simp only at h1 h2 h3 h4
  cases a with
  | send =>
    cases wk with
    | exited => simp [Step] at h
    | calling =>
      cases op with
      | none => simp [Step] at h
      | some r =>
        have h0 := h3 rfl
        by_cases hc : buf.length < cap
        · simp only [Step, hc, if_true, Option.some.injEq] at h
          subst h
          refine ⟨?_, ?_, ?_, ?_⟩
          · simp only; omega
          · simp only [List.length_append, List.length_singleton]; omega
          · intro hw; simp at hw
          · intro hw; exact h4 hw
        · simp [Step, hc] at h
  | fire =>
    cases fired with
    | true => simp [Step] at h
    | false =>
      simp only [Step, Bool.false_eq_true, if_false, Option.some.injEq] at h
      subst h
      exact ⟨h1, h2, h3, h4⟩
  | recv =>
    cases wt with
    | selecting =>
      cases buf with
      | nil => simp [Step] at h
      | cons r rest =>
        have h0 := h4 rfl
        simp only [Step, Option.some.injEq] at h
        subst h
        simp only [List.length_cons] at h2
        refine ⟨h1, ?_, ?_, ?_⟩
        · simp only; omega
        · intro hw; have := h3 hw; omega
        · intro hw; simp at hw
    | received r => simp [Step] at h
    | timedOut => simp [Step] at h
  | leave =>
    cases wt with
    | selecting =>
      cases fired with
      | false => simp [Step] at h
      | true =>
        simp only [Step, if_true, Option.some.injEq] at h
        subst h
        refine ⟨h1, h2, h3, ?_⟩
        intro hw; simp at hw
    | received r => simp [Step] at h
    | timedOut => simp [Step] at h

theorem init_consistent (ρ : Type) : (Invocation.init ρ).consistent := by
  simp [Invocation.consistent, Invocation.init]

theorem exec_consistent {ρ : Type} (cap : Nat) (op : Option ρ) (acts : List Action) :
    ∀ (s s2 : Invocation ρ), s.consistent → exec cap op acts s = some s2 → s2.consistent := by
  induction acts with
  | nil =>
    intro s s2 hs h
    simp only [exec] at h
    injection h with h; subst h; exact hs
  | cons a as ih =>
    intro s s2 hs h
    simp only [exec] at h
    cases hstep : Step cap op a s with
    | none => rw [hstep] at h; cases h
    | some s1 =>
      rw [hstep] at h
      exact ih s1 s2 (Step_consistent cap op a s s1 hs hstep) h

/-- C9. In every state reached by any schedule of the four steps (the worker's
send, the timer firing, the receive case, the timer case) from the start of an
invocation on a channel of capacity `two`: `resCh` has been written at most once
and read at most once, it holds at most one message, which is within its
capacity 2; and a worker that has not yet sent, whose primitive has returned,
can take its send step in that state, whatever the caller has done, so also
after the caller has left by the timer case. -/
theorem resCh_holds_at_most_one_and_send_is_enabled {ρ : Type} (op : Option ρ)
    (acts : List Action) (s : Invocation ρ)
    (h : exec two op acts (Invocation.init ρ) = some s) :
    s.written ≤ 1 ∧ s.read ≤ 1 ∧ s.resCh.length ≤ 1 ∧ 1 ≤ two ∧ s.resCh.length ≤ two ∧
    (∀ r, op = some r → s.worker = WorkerAt.calling →
      Step two op Action.send s
        = some { s with resCh := s.resCh ++ [r], worker := WorkerAt.exited,
                        written := s.written + 1 }) := by
  obtain ⟨h1, h2, h3, _⟩ := exec_consistent two op acts _ s (init_consistent ρ) h
  refine ⟨h1, by omega, by omega, by decide, ?_, ?_⟩
  · have : (2 : Nat) = two := rfl
    omega
  · intro r hop hw
    have h0 := h3 hw
    have hlen : s.resCh.length < two := by
      have : (2 : Nat) = two := rfl
      omega
    simp [Step, hop, hw, hlen]

/-- Witness of C9: the timer fires, the caller leaves by the timer case, and the
worker, whose primitive then returns 7, still completes its send. -/
theorem resCh_holds_at_most_one_and_send_is_enabled_witness :
    exec two (some 7) [Action.fire, Action.leave] (Invocation.init Nat)
        = some ⟨[], true, WorkerAt.calling, WaiterAt.timedOut, 0, 0⟩ ∧
    Step two (some 7) Action.send ⟨[], true, WorkerAt.calling, WaiterAt.timedOut, 0, 0⟩
        = some ⟨[7], true, WorkerAt.exited, WaiterAt.timedOut, 1, 0⟩ :=
  ⟨by decide,
   (resCh_holds_at_most_one_and_send_is_enabled (some 7) [Action.fire, Action.leave]
      ⟨[], true, WorkerAt.calling, WaiterAt.timedOut, 0, 0⟩ (by decide)).2.2.2.2.2 7 rfl rfl⟩

/-! ## The two layers agree -/

/-- What the `select` of the function layer yields is the end of a run of the
step layer: the receive case is the run send, receive; the timer case is the
run fire, leave. -/
theorem select_is_a_run {ρ : Type} (b : Blocking ρ) (timer : Nat) (tie : Bool) :
    match (select ⟨two, b⟩ timer tie).case with
    | Case.recv r =>
      exec two (b.map Prod.snd) [Action.send, Action.recv] (Invocation.init ρ)
        = some ⟨[], false, WorkerAt.exited, WaiterAt.received r, 1, 1⟩
    | Case.timer =>
      exec two (b.map Prod.snd) [Action.fire, Action.leave] (Invocation.init ρ)
        = some ⟨[], true, WorkerAt.calling, WaiterAt.timedOut, 0, 0⟩ := by
  cases b with
  | none => simp [select, exec, Step, Invocation.init]
  | some dr =>
    obtain ⟨d, r⟩ := dr
    simp only [select]
    split_ifs <;> simp [exec, Step, Invocation.init, two]

theorem exec_received_from_primitive {ρ : Type} (cap : Nat) (op : Option ρ)
    (acts : List Action) :
    ∀ (s s2 : Invocation ρ), (∀ x ∈ s.resCh, op = some x) →
      (∀ r, s.waiter = WaiterAt.received r → op = some r) →
      exec cap op acts s = some s2 →
      (∀ x ∈ s2.resCh, op = some x) ∧ (∀ r, s2.waiter = WaiterAt.received r → op = some r) := by
  induction acts with
  | nil =>
    intro s s2 hb hr h
    simp only [exec, Option.some.injEq] at h
    subst h; exact ⟨hb, hr⟩
  | cons a as ih =>
    intro s s2 hb hr h
    obtain ⟨buf, fired, wk, wt, wr, rd⟩ := s
    simp only at hb hr
    cases a with
    | send =>
      cases wk with
      | exited => simp [exec, Step] at h
      | calling =>
        cases op with
        | none => simp [exec, Step] at h
        | some r =>
          by_cases hc : buf.length < cap
          · simp only [exec, Step, hc, if_true, Option.some_bind] at h
            refine ih _ s2 ?_ hr h
            intro x hx
            simp only [List.mem_append, List.mem_singleton] at hx
            rcases hx with hx | hx
            · exact hb x hx
            · rw [hx]
          · simp [exec, Step, hc] at h
    | fire =>
      cases fired with
      | true => simp [exec, Step] at h
      | false =>
        simp only [exec, Step, Bool.false_eq_true, if_false, Option.some_bind] at h
        exact ih _ s2 hb hr h
    | recv =>
      cases wt with
      | selecting =>
        cases buf with
        | nil => simp [exec, Step] at h
        | cons r rest =>
          simp only [exec, Step, Option.some_bind] at h
          refine ih _ s2 ?_ ?_ h
          · intro x hx; exact hb x (List.mem_cons_of_mem _ hx)
          · intro r2 hr2
            simp only [WaiterAt.received.injEq] at hr2
            rw [← hr2]; exact hb r (List.mem_cons_self _ _)
      | received r => simp [exec, Step] at h
      | timedOut => simp [exec, Step] at h
    | leave =>
      cases wt with
      | selecting =>
        cases fired with
        | false => simp [exec, Step] at h
        | true =>
          simp only [exec, Step, if_true, Option.some_bind] at h
          exact ih _ s2 hb (by intro r hh; cases hh) h
      | received r => simp [exec, Step] at h
      | timedOut => simp [exec, Step] at h

/-- Along every run of the step layer, what the caller receives is what the
primitive returned. -/
theorem run_receives_primitive_result {ρ : Type} (cap : Nat) (op : Option ρ)
    (acts : List Action) (s : Invocation ρ) (r : ρ)
    (h : exec cap op acts (Invocation.init ρ) = some s)
    (hr : s.waiter = WaiterAt.received r) : op = some r :=
  (exec_received_from_primitive cap op acts (Invocation.init ρ) s
    (by intro x hx; simp [Invocation.init] at hx)
    (by intro r hh; simp [Invocation.init] at hh) h).2 r hr

/-! ## The caller and a worker that is late or never returns -/

theorem exec_worker_never_returns {ρ : Type} (cap : Nat) (acts : List Action) :
    ∀ (s s2 : Invocation ρ), s.worker = WorkerAt.calling → s.resCh = [] →
      (∀ r, s.waiter ≠ WaiterAt.received r) → exec cap none acts s = some s2 →
      s2.worker = WorkerAt.calling ∧ s2.resCh = [] ∧ ∀ r, s2.waiter ≠ WaiterAt.received r := by
  induction acts with
  | nil =>
    intro s s2 hw hc hr h
    simp only [exec, Option.some.injEq] at h
    subst h; exact ⟨hw, hc, hr⟩
  | cons a as ih =>
    intro s s2 hw hc hr h
    obtain ⟨buf, fired, wk, wt, wr, rd⟩ := s
    simp only at hw hc hr
    subst hw hc
    cases a with
    | send => simp [exec, Step] at h
    | fire =>
      cases fired with
      | true => simp [exec, Step] at h
      | false =>
        simp only [exec, Step, Bool.false_eq_true, if_false, Option.some_bind] at h
        exact ih _ s2 rfl rfl hr h
    | recv =>
      cases wt <;> simp [exec, Step] at h
    | leave =>
      cases wt with
      | selecting =>
        cases fired with
        | false => simp [exec, Step] at h
        | true =>
          simp only [exec, Step, if_true, Option.some_bind] at h
          exact ih _ s2 rfl rfl (by intro r hh; cases hh) h
      | received r => simp [exec, Step] at h
      | timedOut => simp [exec, Step] at h

/-- Counterexample to C3: the worker of ReadDirTimeout on the slow path `/slow`.
The timer fires while the worker has not yet sent, so the listing did not
complete within the deadline; the worker then sends, and the caller, still in
the `select` with both cases ready, takes the receive case and returns the
listing, not the timeout error. -/
theorem late_result_can_still_be_received :
    exec two
        ((os.ReadDir sampleWorld "/slow").thenSend
          (fun x => (⟨x.1, x.2⟩ : ReadDirTimeout.res))).sends
        [Action.fire] (Invocation.init ReadDirTimeout.res)
      = some ⟨[], true, WorkerAt.calling, WaiterAt.selecting, 0, 0⟩ ∧
    exec two
        ((os.ReadDir sampleWorld "/slow").thenSend
          (fun x => (⟨x.1, x.2⟩ : ReadDirTimeout.res))).sends
        [Action.fire, Action.send, Action.recv] (Invocation.init ReadDirTimeout.res)
      = some ⟨[], true, WorkerAt.exited, WaiterAt.received ⟨some [], none⟩, 1, 1⟩ :=
  ⟨rfl, rfl⟩

/-- C3, amended.  When the primitive never returns, ReadDirTimeout, OpenTimeout
and LstatTimeout still return, with a nil value and their timeout error, for
every deadline; and along every schedule of the steps of such an invocation the
worker stays in its call and the caller never receives.  For any primitive, on
a channel of any capacity: a caller blocked in the `select` can always leave
through the timer alone (the timer fires if it has not yet, then the timer case
runs) with no step of the worker, and this leaves the worker, the channel and
the counts of sends and receives as they are; a caller that left by the timer
case takes no further step, so it never reads the channel; and along every
schedule the caller is still in the `select`, or has left by the timer case, or
has received what the primitive returned. -/
theorem caller_leaves_by_timer_without_worker :
    (∀ (w : World) (name : String) (t : Duration) (p : Proc),
        w.ReadDir name = none →
        (ReadDirTimeout w name t p).ret = (none, errors.New "timeout on ReadDir")) ∧
    (∀ (w : World) (name : String) (t : Duration) (p : Proc),
        w.Open name = none →
        (OpenTimeout w name t p).ret = (none, errors.New "timeout on Open")) ∧
    (∀ (w : World) (name : String) (t : Duration) (p : Proc),
        w.Lstat name = none →
        (LstatTimeout w name t p).ret = (none, errors.New "timeout on Lstat")) ∧
    (∀ (ρ : Type) (acts : List Action) (s : Invocation ρ),
        exec two none acts (Invocation.init ρ) = some s →
        s.worker = WorkerAt.calling ∧ ∀ r, s.waiter ≠ WaiterAt.received r) ∧
    (∀ (ρ : Type) (cap : Nat) (op : Option ρ) (s : Invocation ρ),
        s.waiter = WaiterAt.selecting →
        exec cap op (if s.fired then [Action.leave] else [Action.fire, Action.leave]) s
          = some { s with fired := true, waiter := WaiterAt.timedOut }) ∧
    (∀ (ρ : Type) (cap : Nat) (op : Option ρ) (s : Invocation ρ),
        s.waiter = WaiterAt.timedOut →
        Step cap op Action.recv s = none ∧ Step cap op Action.leave s = none) ∧
    (∀ (ρ : Type) (op : Option ρ) (acts : List Action) (s : Invocation ρ),
        exec two op acts (Invocation.init ρ) = some s →
        s.waiter = WaiterAt.selecting ∨ s.waiter = WaiterAt.timedOut ∨
          ∃ r, op = some r ∧ s.waiter = WaiterAt.received r) := by
  refine ⟨?_, ?_, ?_, ?_, ?_, ?_, ?_⟩
  · intro w name t p h
    have hd : deadlineFirst (w.ReadDir name) t w.tie := by rw [h]; trivial
    rw [ReadDirTimeout_deadline w name t p hd]; rfl
  · intro w name t p h
    have hd : deadlineFirst (w.Open name) t w.tie := by rw [h]; trivial
    rw [OpenTimeout_deadline w name t p hd]; rfl
  · intro w name t p h
    have hd : deadlineFirst (w.Lstat name) t w.tie := by rw [h]; trivial
    rw [LstatTimeout_deadline w name t p hd]; rfl
  · intro ρ acts s h
    have := exec_worker_never_returns two acts (Invocation.init ρ) s rfl rfl
      (by intro r hh; cases hh) h
    exact ⟨this.1, this.2.2⟩
  · intro ρ cap op s hw
    obtain ⟨buf, fired, wk, wt, wr, rd⟩ := s
    simp only at hw
    subst hw
    cases fired <;> simp [exec, Step]
  · intro ρ cap op s hw
    obtain ⟨buf, fired, wk, wt, wr, rd⟩ := s
    simp only at hw
    subst hw
    simp [Step]
  · intro ρ op acts s h
    cases hw : s.waiter with
    | selecting => exact Or.inl rfl
    | timedOut => exact Or.inr (Or.inl rfl)
    | received r =>
      exact Or.inr (Or.inr ⟨r, run_receives_primitive_result two op acts s r h hw, rfl⟩)

/-- Witness of the amended C3: the mount `/nas` never answers; the run in which
the timer fires and the caller leaves while the primitive never returns; and
the run in which a late result is received. -/
theorem caller_leaves_by_timer_without_worker_witness :
    (ReadDirTimeout sampleWorld "/nas" 200 freshProc).ret
        = (none, some (GoError.errorString "timeout on ReadDir")) ∧
    (OpenTimeout sampleWorld "/nas" 0 freshProc).ret
        = (none, some (GoError.errorString "timeout on Open")) ∧
    (LstatTimeout sampleWorld "/nas" 60000000000 freshProc).ret
        = (none, some (GoError.errorString "timeout on Lstat")) ∧
    (WorkerAt.calling = WorkerAt.calling ∧
      ∀ r : Nat, (WaiterAt.timedOut : WaiterAt Nat) ≠ WaiterAt.received r) ∧
    exec two (none : Option Nat) [Action.fire, Action.leave] (Invocation.init Nat)
        = some ⟨[], true, WorkerAt.calling, WaiterAt.timedOut, 0, 0⟩ ∧
    (Step two (none : Option Nat) Action.recv
        ⟨[], true, WorkerAt.calling, WaiterAt.timedOut, 0, 0⟩ = none ∧
      Step two (none : Option Nat) Action.leave
        ⟨[], true, WorkerAt.calling, WaiterAt.timedOut, 0, 0⟩ = none) ∧
    ((WaiterAt.received 7 : WaiterAt Nat) = WaiterAt.selecting ∨
      (WaiterAt.received 7 : WaiterAt Nat) = WaiterAt.timedOut ∨
      ∃ r, some 7 = some r ∧ (WaiterAt.received 7 : WaiterAt Nat) = WaiterAt.received r) :=
  ⟨caller_leaves_by_timer_without_worker.1 sampleWorld "/nas" 200 freshProc rfl,
   caller_leaves_by_timer_without_worker.2.1 sampleWorld "/nas" 0 freshProc rfl,
   caller_leaves_by_timer_without_worker.2.2.1 sampleWorld "/nas" 60000000000 freshProc rfl,
   caller_leaves_by_timer_without_worker.2.2.2.1 Nat [Action.fire, Action.leave]
     ⟨[], true, WorkerAt.calling, WaiterAt.timedOut, 0, 0⟩ (by decide),
   caller_leaves_by_timer_without_worker.2.2.2.2.1 Nat two none (Invocation.init Nat) rfl,
   caller_leaves_by_timer_without_worker.2.2.2.2.2.1 Nat two none
     ⟨[], true, WorkerAt.calling, WaiterAt.timedOut, 0, 0⟩ rfl,
   caller_leaves_by_timer_without_worker.2.2.2.2.2.2 Nat (some 7)
     [Action.fire, Action.send, Action.recv]
     ⟨[], true, WorkerAt.exited, WaiterAt.received 7, 1, 1⟩ (by decide)⟩

end timeouts
